import Mathlib

/-!
Shallow embedding of the normalization / estimation / decision core of the
vehicle-damage analyzer (src/app/api/analyze/route.ts, revision with the
typed handler).  JavaScript numbers are modelled as rationals (ℚ); loosely
typed JSON values reaching the normalizer are modelled by an explicit
`JVal` type; `Math.round` is modelled as floor (x + 1/2), matching the JS
semantics of rounding halves toward positive infinity; `toFixed(2)` is
modelled as rounding to two decimal places.
-/

namespace VehicleDamage

/-- A JSON-like runtime value, as seen by the normalizer: the model output is
parsed JSON of unknown shape. -/
inductive JVal where
  | null : JVal
  | bool (b : Bool) : JVal
  | num (q : ℚ) : JVal
  | str (s : String) : JVal
  | arr (elems : List JVal) : JVal
  | obj (fields : List (String × JVal)) : JVal

/-- Property access d["k"]: `some` when the key is present on an object,
`none` otherwise (JS `undefined`).  Mirrors `isRecord(dIn) ? dIn : {}`
followed by a key lookup. -/
def getField (v : JVal) (k : String) : Option JVal :=
  match v with
  | .obj fields => fields.lookup k
  | _ => none

/-- Boolean leading-match test on character lists (helper for substring
search). -/
def prefixMatches : List Char → List Char → Bool
  | [], _ => true
  | _ :: _, [] => false
  | a :: as, b :: bs => a == b && prefixMatches as bs

/-- Boolean substring-occurrence test on character lists. -/
def occursWithin (pat : List Char) : List Char → Bool
  | [] => prefixMatches pat []
  | c :: rest => prefixMatches pat (c :: rest) || occursWithin pat rest

/-- JS `s.includes(pat)`: `pat` occurs as a contiguous substring of `s`. -/
def strContains (s pat : String) : Bool :=
  occursWithin pat.toList s.toList

/-- JS `Math.round`: round half toward positive infinity. -/
def jsRound (q : ℚ) : ℤ :=
  Int.floor (q + 1/2)

/-- JS `+(x).toFixed(2)`: round to two decimal places. -/
def round2 (q : ℚ) : ℚ :=
  (jsRound (q * 100) : ℚ) / 100

/-- `hoursFor(part, sev)`: the base-hours table keyed by part, times the
severity multiplier, rounded to 2 decimals. -/
def hoursFor (part : String) (sev : ℚ) : ℚ :=
  let base : ℚ :=
    if part = "bumper" then 1.2
    else if part = "door" then 1.5
    else if part = "fender" then 1.2
    else if part = "hood" then 1.4
    else if part = "quarter-panel" then 2.0
    else if part = "headlight" ∨ part = "taillight" then 0.6
    else if part = "grille" then 0.8
    else if part = "mirror" then 0.5
    else if part = "windshield" then 1.2
    else if part = "wheel" then 0.7
    else if part = "trunk" then 1.4
    else 1.0
  let sevMult : ℚ :=
    if sev ≤ 1 then 0.5
    else if sev = 2 then 0.8
    else if sev = 3 then 1.0
    else if sev = 4 then 1.4
    else 1.8
  round2 (base * sevMult)

/-- `needsPaintFor(type, sev, part)`: glass/light/mirror parts never need
paint; scratch/paint damage types always do; otherwise severity ≥ 2. -/
def needsPaintFor (type : String) (sev : ℚ) (part : String) : Bool :=
  if part = "windshield" ∨ part = "headlight" ∨ part = "taillight" ∨ part = "mirror" then
    false
  else if strContains type "scratch" || strContains type "paint" then
    true
  else
    decide (2 ≤ sev)

/-- A canonical damage record as actually built by the normalizer at runtime:
the enumerated fields are runtime strings (the TypeScript union types
`Zone`, `Part`, `DamageType` are imposed only by unchecked `as` casts). -/
structure DamageItem where
  zone : String
  part : String
  damage_type : String
  severity : ℚ
  confidence : ℚ
  est_labor_hours : ℚ
  needs_paint : Bool
  likely_parts : List String
  bbox_rel : Option (ℚ × ℚ × ℚ × ℚ)
  polygon_rel : Option (List (ℚ × ℚ))
deriving DecidableEq

/-- `isBBoxRel(v)`: an array of exactly 4 numbers, each in [0,1]. -/
def isBBoxRel (v : JVal) : Bool :=
  match v with
  | .arr xs =>
      xs.length == 4 &&
      xs.all fun e =>
        match e with
        | .num q => decide (0 ≤ q ∧ q ≤ 1)
        | _ => false
  | _ => false

/-- `isPolygonRel(v)`: an array of 3–12 points, each a 2-number array with
both coordinates in [0,1]. -/
def isPolygonRel (v : JVal) : Bool :=
  match v with
  | .arr pts =>
      decide (3 ≤ pts.length) && decide (pts.length ≤ 12) &&
      pts.all fun pt =>
        match pt with
        | .arr [.num a, .num b] => decide (0 ≤ a ∧ a ≤ 1 ∧ 0 ≤ b ∧ b ≤ 1)
        | _ => false
  | _ => false

/-- Numeric element read `xs[i]` with JS-style fallback (non-numbers read as
0; unreachable under the validity guards). -/
def numAt (xs : List JVal) (i : Nat) : ℚ :=
  match xs.getD i JVal.null with
  | .num q => q
  | _ => 0

/-- Tuple extraction `[bb[0], bb[1], bb[2], bb[3]]`, used under the
`isBBoxRel` guard. -/
def bboxElems (v : JVal) : ℚ × ℚ × ℚ × ℚ :=
  match v with
  | .arr xs => (numAt xs 0, numAt xs 1, numAt xs 2, numAt xs 3)
  | _ => (0, 0, 0, 0)

/-- Point-list extraction `poly.map((pt) => [pt[0], pt[1]])`, used under the
`isPolygonRel` guard. -/
def polyElems (v : JVal) : List (ℚ × ℚ) :=
  match v with
  | .arr pts =>
      pts.map fun pt =>
        match pt with
        | .arr xs => (numAt xs 0, numAt xs 1)
        | _ => (0, 0)
  | _ => []

/-- JS `String(v)` coercion, modelled for the value shapes the pipeline can
feed it (`likely_parts` elements). -/
def jsToString : JVal → String
  | .str s => s
  | .num q => toString q
  | .bool b => if b then "true" else "false"
  | .null => "null"
  | .arr xs => String.intercalate "," (xs.attach.map fun e => jsToString e.1)
  | .obj _ => "[object Object]"
decreasing_by
  have := List.sizeOf_lt_of_mem e.2
  simp only [JVal.arr.sizeOf_spec]
  omega

/-- `const sev = typeof sevRaw === "number" && sevRaw >= 1 && sevRaw <= 5 ?
sevRaw : 2` (route.ts line 700).  Note the check is only a range check on a
number, with an unchecked cast to the literal type 1|2|3|4|5. -/
def normSeverity (dIn : JVal) : ℚ :=
  match getField dIn "severity" with
  | some (.num q) => if 1 ≤ q ∧ q ≤ 5 then q else 2
  | _ => 2

/-- `const p = typeof d["part"] === "string" ? d["part"] : "unknown"`
(route.ts line 701).  Note any string passes, with an unchecked cast to the
`Part` union. -/
def normPart (dIn : JVal) : String :=
  match getField dIn "part" with
  | some (.str s) => s
  | _ => "unknown"

/-- `const ht = typeof estRaw === "number" ? estRaw : hoursFor(p, sev)`
(route.ts line 703). -/
def normHours (dIn : JVal) : ℚ :=
  match getField dIn "est_labor_hours" with
  | some (.num q) => q
  | _ => hoursFor (normPart dIn) (normSeverity dIn)

/-- `const dmgType = typeof d["damage_type"] === "string" ?
d["damage_type"] : "unknown"` (route.ts line 705). -/
def normDamageType (dIn : JVal) : String :=
  match getField dIn "damage_type" with
  | some (.str s) => s
  | _ => "unknown"

/-- `const paint = typeof needsRaw === "boolean" ? needsRaw :
needsPaintFor(String(dmgType || ""), sev, p)` (route.ts line 706); on a
string `dmgType`, `String(dmgType || "")` is `dmgType` itself. -/
def normNeedsPaint (dIn : JVal) : Bool :=
  match getField dIn "needs_paint" with
  | some (.bool b) => b
  | _ => needsPaintFor (normDamageType dIn) (normSeverity dIn) (normPart dIn)

/-- `const conf = typeof confRaw === "number" ? Math.max(0, Math.min(1,
confRaw)) : 0.5` (route.ts line 708). -/
def normConfidence (dIn : JVal) : ℚ :=
  match getField dIn "confidence" with
  | some (.num q) => max 0 (min 1 q)
  | _ => 1/2

/-- `zone: typeof d["zone"] === "string" ? d["zone"] : "unknown"` (route.ts
line 711).  Note any string passes, with an unchecked cast to the `Zone`
union. -/
def normZone (dIn : JVal) : String :=
  match getField dIn "zone" with
  | some (.str s) => s
  | _ => "unknown"

/-- `likely_parts: Array.isArray(...) ? (...).map(String) : []` (route.ts
line 718). -/
def normLikelyParts (dIn : JVal) : List String :=
  match getField dIn "likely_parts" with
  | some (.arr xs) => xs.map jsToString
  | _ => []

/-- `if (isBBoxRel(bb)) out.bbox_rel = [bb[0], bb[1], bb[2], bb[3]]`
(route.ts lines 721–722). -/
def normBBox (dIn : JVal) : Option (ℚ × ℚ × ℚ × ℚ) :=
  match getField dIn "bbox_rel" with
  | some v => if isBBoxRel v then some (bboxElems v) else none
  | none => none

/-- `if (isPolygonRel(poly)) out.polygon_rel = poly.map((pt) => [pt[0],
pt[1]])` (route.ts lines 723–724). -/
def normPoly (dIn : JVal) : Option (List (ℚ × ℚ)) :=
  match getField dIn "polygon_rel" with
  | some v => if isPolygonRel v then some (polyElems v) else none
  | none => none

/-- The per-element normalizer body (`itemsIn.map((dIn) => {...})`,
route.ts lines 697–726): builds one canonical record from one candidate
observation of arbitrary shape. -/
def normalizeItem (dIn : JVal) : DamageItem :=
  { zone := normZone dIn,
    part := normPart dIn,
    damage_type := normDamageType dIn,
    severity := normSeverity dIn,
    confidence := normConfidence dIn,
    est_labor_hours := normHours dIn,
    needs_paint := normNeedsPaint dIn,
    likely_parts := normLikelyParts dIn,
    bbox_rel := normBBox dIn,
    polygon_rel := normPoly dIn }

/-- The whole normalization pass over the candidate array. -/
def normalize (cands : List JVal) : List DamageItem :=
  cands.map normalizeItem

/-- Configuration: unit costs and routing thresholds, read once from the
environment with these defaults. -/
structure Config where
  labor : ℚ
  paint : ℚ
  autoMaxCost : ℚ
  autoMaxSeverity : ℚ
  autoMinConf : ℚ
  specMinCost : ℚ
  specMinSeverity : ℚ

/-- The default configuration (LABOR_RATE 95, PAINT_MAT_COST 180,
AUTO_MAX_COST 1500, AUTO_MAX_SEVERITY 2, AUTO_MIN_CONF 0.75,
SPECIALIST_MIN_COST 5000, SPECIALIST_MIN_SEVERITY 4). -/
def defaultConfig : Config :=
  { labor := 95, paint := 180, autoMaxCost := 1500, autoMaxSeverity := 2,
    autoMinConf := 0.75, specMinCost := 5000, specMinSeverity := 4 }

/-- An Estimate value: `{currency, cost_low, cost_high, assumptions}`. -/
structure Estimate where
  currency : String
  cost_low : ℤ
  cost_high : ℤ
  assumptions : List String
deriving DecidableEq

/-- Accumulator state of the `estimateFromItems` loop: running labor, paint
and parts totals plus the set of zones already charged for paint. -/
structure EstAcc where
  labor : ℚ
  paint : ℚ
  parts : ℚ
  zones : List String
deriving DecidableEq

/-- One iteration of the `estimateFromItems` loop body over a canonical
record (on canonical records `est_labor_hours` is always a number,
`needs_paint` always a boolean, `likely_parts` always an array, so the
defensive `typeof` branches resolve to the field reads). -/
def estStep (cfg : Config) (acc : EstAcc) (d : DamageItem) : EstAcc :=
  let labor := acc.labor + d.est_labor_hours * cfg.labor
  let charge : Bool := d.needs_paint && !(d.zone == "") && !(acc.zones.contains d.zone)
  let paint := if charge then acc.paint + cfg.paint else acc.paint
  let zones := if charge then acc.zones ++ [d.zone] else acc.zones
  let lp := d.likely_parts.length
  let parts :=
    if 4 ≤ d.severity ∨ lp ≠ 0 then
      acc.parts + 250 * ((max 1 (if lp = 0 then 1 else lp) : ℕ) : ℚ)
    else acc.parts
  { labor := labor, paint := paint, parts := parts, zones := zones }

/-- The accumulation phase of `estimateFromItems`. -/
def estAccumulate (cfg : Config) (items : List DamageItem) : EstAcc :=
  items.foldl (estStep cfg) { labor := 0, paint := 0, parts := 0, zones := [] }

/-- `estimateFromItems(items)`: cost rollup to a rounded cost band with
severity-driven variance. -/
def estimateFromItems (cfg : Config) (items : List DamageItem) : Estimate :=
  let acc := estAccumulate cfg items
  let subtotal := acc.labor + acc.paint + acc.parts
  let variance : ℚ := if items.any fun i => decide (4 ≤ i.severity) then 0.25 else 0.15
  { currency := "USD",
    cost_low := jsRound (subtotal * (1 - variance)),
    cost_high := jsRound (subtotal * (1 + variance)),
    assumptions :=
      [ "Labor $" ++ toString cfg.labor ++ "/hr",
        "Paint/material $" ++ toString cfg.paint ++ "/panel/zone",
        "Parts allowance (midpoint)",
        "Visual-only estimate; subject to teardown" ] }

/-- `aggregateConfidence(items)`: severity-weighted average of confidences,
0.5 on an empty (zero-weight) set. -/
def aggregateConfidence (items : List DamageItem) : ℚ :=
  let s := items.foldl
    (fun (nd : ℚ × ℚ) d =>
      let w := 1 + (1/5) * (d.severity - 1)
      (nd.1 + d.confidence * w, nd.2 + w))
    (0, 0)
  if s.2 ≠ 0 then s.1 / s.2 else 1/2

/-- `items.reduce((m, d) => Math.max(m, Number(d.severity ?? 1)), 0)`. -/
def maxSeverity (items : List DamageItem) : ℚ :=
  items.foldl (fun m d => max m d.severity) 0

/-- One justification string of a Decision, modelled as a tagged value
carrying exactly the data interpolated into the corresponding template
string of the source. -/
inductive Reason where
  | sevAtMost (bound : ℚ) : Reason
  | costAtMost (bound : ℚ) : Reason
  | confAtLeastPct (pct : ℤ) : Reason
  | sevAtLeast (bound : ℚ) : Reason
  | costAtLeast (bound : ℚ) : Reason
  | aggConfPct (pct : ℤ) : Reason
  | maxSeverityVal (v : ℚ) : Reason
  | costHighVal (v : ℚ) : Reason
deriving DecidableEq

/-- A Decision value: a label and its ordered reasons. -/
structure Decision where
  label : String
  reasons : List Reason
deriving DecidableEq

/-- `routeDecision(items, estimate)`: AUTO-APPROVE checked first
(conjunctive), SPECIALIST second (disjunctive), INVESTIGATE fallback. -/
def routeDecision (cfg : Config) (items : List DamageItem) (estimate : Estimate) : Decision :=
  let maxSev := maxSeverity items
  let agg := aggregateConfidence items
  let hi : ℚ := (estimate.cost_high : ℚ)
  if maxSev ≤ cfg.autoMaxSeverity ∧ hi ≤ cfg.autoMaxCost ∧ cfg.autoMinConf ≤ agg then
    { label := "AUTO-APPROVE",
      reasons :=
        [ Reason.sevAtMost cfg.autoMaxSeverity,
          Reason.costAtMost cfg.autoMaxCost,
          Reason.confAtLeastPct (jsRound (cfg.autoMinConf * 100)) ] }
  else if cfg.specMinSeverity ≤ maxSev ∨ cfg.specMinCost ≤ hi then
    { label := "SPECIALIST",
      reasons :=
        (if cfg.specMinSeverity ≤ maxSev then [Reason.sevAtLeast cfg.specMinSeverity] else []) ++
        (if cfg.specMinCost ≤ hi then [Reason.costAtLeast cfg.specMinCost] else []) }
  else
    { label := "INVESTIGATE",
      reasons :=
        [ Reason.aggConfPct (jsRound (agg * 100)),
          Reason.maxSeverityVal maxSev,
          Reason.costHighVal hi ] }

/-- A validated YOLO seed box (as produced by the `isYoloSeed` filter). -/
structure YoloSeed where
  bbox_rel : ℚ × ℚ × ℚ × ℚ
  confidence : ℚ
deriving DecidableEq

/-- The synthetic record built from one YOLO seed when the model produced no
damage items (route.ts lines 729–739). -/
def seedToItem (b : YoloSeed) : DamageItem :=
  { zone := "unknown",
    part := "unknown",
    damage_type := "unknown",
    severity := 2,
    confidence := max 0 (min 1 b.confidence),
    est_labor_hours := hoursFor "unknown" 2,
    needs_paint := false,
    likely_parts := [],
    bbox_rel := some b.bbox_rel,
    polygon_rel := none }

/-- `itemsFinal = items.length ? items : yoloSeeds.map(...)`. -/
def itemsFinal (items : List DamageItem) (seeds : List YoloSeed) : List DamageItem :=
  if items.length ≠ 0 then items else seeds.map seedToItem

/-- The portion of the POST handler downstream of JSON parsing: normalize the
candidate array, substitute YOLO-seeded records when empty, then compute
estimate and decision over the final record list. -/
def analyzeOutcome (cfg : Config) (cands : List JVal) (seeds : List YoloSeed) :
    List DamageItem × Estimate × Decision :=
  let items := normalize cands
  let fin := itemsFinal items seeds
  let est := estimateFromItems cfg fin
  (fin, est, routeDecision cfg fin est)

/-! ## Concrete inputs used by witnesses, counterexamples and edge cases -/

/-- A candidate observation carrying both a valid bounding box and a valid
polygon. -/
def bothGeom : JVal :=
  JVal.obj
    [ ("bbox_rel",
        JVal.arr [JVal.num (1/10), JVal.num (1/5), JVal.num (3/10), JVal.num (2/5)]),
      ("polygon_rel",
        JVal.arr
          [ JVal.arr [JVal.num 0, JVal.num 0],
            JVal.arr [JVal.num 1, JVal.num 0],
            JVal.arr [JVal.num (1/2), JVal.num 1] ]) ]

/-- A candidate observation whose labor hours are a negative number. -/
def negHoursCand : JVal :=
  JVal.obj [("est_labor_hours", JVal.num (-10)), ("needs_paint", JVal.bool false)]

/-- A canonical record with maximal severity (for the SPECIALIST example). -/
def sampleSevere : DamageItem :=
  { zone := "front", part := "door", damage_type := "dent", severity := 5,
    confidence := 9/10, est_labor_hours := 1, needs_paint := false,
    likely_parts := [], bbox_rel := none, polygon_rel := none }

/-- An estimate with cost_high 200 (for the SPECIALIST example). -/
def sampleEst : Estimate :=
  { currency := "USD", cost_low := 100, cost_high := 200, assumptions := [] }

/-- First of two paintable records sharing the zone front-left. -/
def rFL1 : DamageItem :=
  { zone := "front-left", part := "bumper", damage_type := "dent", severity := 2,
    confidence := 4/5, est_labor_hours := 1, needs_paint := true,
    likely_parts := [], bbox_rel := none, polygon_rel := none }

/-- Second paintable record in the same zone front-left. -/
def rFL2 : DamageItem :=
  { rFL1 with part := "fender", est_labor_hours := 1/2 }

/-- A canonical record used by the aggregate-confidence witness. -/
def wRec1 : DamageItem :=
  { zone := "front", part := "hood", damage_type := "dent", severity := 2,
    confidence := 3/5, est_labor_hours := 1, needs_paint := true,
    likely_parts := [], bbox_rel := none, polygon_rel := none }

/-- Second canonical record used by the aggregate-confidence witness. -/
def wRec2 : DamageItem :=
  { zone := "rear", part := "trunk", damage_type := "scratch", severity := 4,
    confidence := 9/10, est_labor_hours := 2, needs_paint := true,
    likely_parts := [], bbox_rel := none, polygon_rel := none }

/-- A candidate observation whose enumerated fields hold strings outside the
enumerations. -/
def bananaCand : JVal :=
  JVal.obj
    [ ("zone", JVal.str "banana"), ("part", JVal.str "bananas"),
      ("damage_type", JVal.str "squash") ]

/-- A candidate observation with the non-integer severity 2.5. -/
def sevHalfCand : JVal :=
  JVal.obj [("severity", JVal.num (5/2))]

/-! ## Theorems -/

/-- Evaluation rule for jsRound at concrete arguments. -/
theorem jsRound_eq_of (q : ℚ) (n : ℤ) (hl : (n : ℚ) ≤ q + 1/2) (hu : q + 1/2 < n + 1) :
    jsRound q = n := by
  unfold jsRound
  rw [Int.floor_eq_iff]
  exact ⟨hl, hu⟩

/-- C2: the claim says a string outside the enumeration (zone "banana") is
replaced with "unknown"; the code only checks `typeof === "string"` and
passes arbitrary strings through into fields whose declared TypeScript types
are the `Zone`/`Part`/`DamageType` unions (unchecked `as` casts).  Evaluated
at the failing input: the strings survive normalization; only non-string
values fall back to "unknown". -/
theorem enum_passthrough_at_banana :
    (normalizeItem bananaCand).zone = "banana" ∧
    (normalizeItem bananaCand).part = "bananas" ∧
    (normalizeItem bananaCand).damage_type = "squash" ∧
    (normalizeItem (JVal.obj [("zone", JVal.num 3)])).zone = "unknown" := by
  have hz : getField bananaCand "zone" = some (JVal.str "banana") := rfl
  have hp : getField bananaCand "part" = some (JVal.str "bananas") := rfl
  have hd : getField bananaCand "damage_type" = some (JVal.str "squash") := rfl
  refine ⟨?_, ?_, ?_, ?_⟩
  · simp [normalizeItem, normZone, hz]
  · simp [normalizeItem, normPart, hp]
  · simp [normalizeItem, normDamageType, hd]
  · simp [normalizeItem, normZone, getField, List.lookup]

/-- C3: the claim says no non-integer severity ever appears in a canonical
record; the code keeps any number in [1,5], so severity 2.5 survives and is
equal to no integer, while out-of-range numbers do default to 2. -/
theorem severity_noninteger_passthrough :
    (normalizeItem sevHalfCand).severity = 5/2 ∧
    (∀ k : ℤ, (normalizeItem sevHalfCand).severity ≠ (k : ℚ)) ∧
    (normalizeItem (JVal.obj [("severity", JVal.num 7)])).severity = 2 := by
  have hs : getField sevHalfCand "severity" = some (JVal.num (5/2)) := rfl
  have h1 : (normalizeItem sevHalfCand).severity = 5/2 := by
    norm_num [normalizeItem, normSeverity, hs]
  refine ⟨h1, ?_, ?_⟩
  · intro k hk
    rw [h1] at hk
    have h2 : (5 : ℚ) = 2 * (k : ℚ) := by linarith
    have h3 : (5 : ℤ) = 2 * k := by exact_mod_cast h2
    omega
  · norm_num [normalizeItem, normSeverity, getField, List.lookup]

/-- C4 counterexample: a candidate supplying both a valid bounding box and a
valid polygon normalizes to a record that still carries the bounding box —
the two geometry fields are validated independently and the claimed
polygon-only precedence does not hold. -/
theorem polygon_precedence_counterexample :
    (normalizeItem bothGeom).bbox_rel ≠ none ∧
    (normalizeItem bothGeom).bbox_rel = some (1/10, 1/5, 3/10, 2/5) ∧
    (normalizeItem bothGeom).polygon_rel = some [(0, 0), (1, 0), (1/2, 1)] := by
  have hb : getField bothGeom "bbox_rel" =
      some (JVal.arr [JVal.num (1/10), JVal.num (1/5), JVal.num (3/10), JVal.num (2/5)]) := rfl
  have hpg : getField bothGeom "polygon_rel" =
      some (JVal.arr
        [ JVal.arr [JVal.num 0, JVal.num 0],
          JVal.arr [JVal.num 1, JVal.num 0],
          JVal.arr [JVal.num (1/2), JVal.num 1] ]) := rfl
  have h2 : (normalizeItem bothGeom).bbox_rel = some (1/10, 1/5, 3/10, 2/5) := by
    norm_num [normalizeItem, normBBox, hb, isBBoxRel, bboxElems, numAt]
  refine ⟨by rw [h2]; simp, h2, ?_⟩
  norm_num [normalizeItem, normPoly, hpg, isPolygonRel, polyElems, numAt]

/-- C5 counterexample: the normalizer passes a negative est_labor_hours
through, the subtotal goes negative, and the rounded band inverts:
cost_low = -807 > cost_high = -1092, and both are negative. -/
theorem cost_band_counterexample :
    (estimateFromItems defaultConfig (normalize [negHoursCand])).cost_low = -807 ∧
    (estimateFromItems defaultConfig (normalize [negHoursCand])).cost_high = -1092 ∧
    ¬ (estimateFromItems defaultConfig (normalize [negHoursCand])).cost_low ≤
        (estimateFromItems defaultConfig (normalize [negHoursCand])).cost_high ∧
    (estimateFromItems defaultConfig (normalize [negHoursCand])).cost_low < 0 := by
  have hh : getField negHoursCand "est_labor_hours" = some (JVal.num (-10)) := rfl
  have hnp : getField negHoursCand "needs_paint" = some (JVal.bool false) := rfl
  have hn : normalize [negHoursCand] =
      [{ zone := "unknown", part := "unknown", damage_type := "unknown",
         severity := 2, confidence := 1/2, est_labor_hours := -10,
         needs_paint := false, likely_parts := [], bbox_rel := none,
         polygon_rel := none }] := by
    simp [normalize, normalizeItem, normZone, normPart, normDamageType,
      normSeverity, normConfidence, normHours, normNeedsPaint,
      normLikelyParts, normBBox, normPoly, hh, hnp, getField, List.lookup,
      negHoursCand]
  have hacc : estAccumulate defaultConfig
      [{ zone := "unknown", part := "unknown", damage_type := "unknown",
         severity := 2, confidence := 1/2, est_labor_hours := -10,
         needs_paint := false, likely_parts := [], bbox_rel := none,
         polygon_rel := none }] =
      { labor := -950, paint := 0, parts := 0, zones := [] } := by
    norm_num [estAccumulate, estStep, defaultConfig]
  have hlow : (estimateFromItems defaultConfig (normalize [negHoursCand])).cost_low =
      jsRound (-1615/2) := by
    rw [hn]
    simp only [estimateFromItems, hacc]
    norm_num
  have hhigh : (estimateFromItems defaultConfig (normalize [negHoursCand])).cost_high =
      jsRound (-2185/2) := by
    rw [hn]
    simp only [estimateFromItems, hacc]
    norm_num
  have hjl : jsRound (-1615/2 : ℚ) = -807 :=
    jsRound_eq_of _ _ (by norm_num) (by norm_num)
  have hjh : jsRound (-2185/2 : ℚ) = -1092 :=
    jsRound_eq_of _ _ (by norm_num) (by norm_num)
  rw [hlow, hhigh, hjl, hjh]
  norm_num

/-- C8: on the empty record sequence under the default configuration,
max severity is 0, the estimate band is [0,0], the aggregate confidence is
exactly 1/2, which is below the default auto-min-confidence 3/4, and the
decision label is INVESTIGATE, not AUTO-APPROVE. -/
theorem empty_findings_investigate :
    maxSeverity [] = 0 ∧
    (estimateFromItems defaultConfig []).cost_low = 0 ∧
    (estimateFromItems defaultConfig []).cost_high = 0 ∧
    aggregateConfidence [] = 1/2 ∧
    defaultConfig.autoMinConf = 3/4 ∧
    (routeDecision defaultConfig [] (estimateFromItems defaultConfig [])).label =
      "INVESTIGATE" ∧
    (routeDecision defaultConfig [] (estimateFromItems defaultConfig [])).label ≠
      "AUTO-APPROVE" := by
  have hj0 : jsRound (0 : ℚ) = 0 := jsRound_eq_of _ _ (by norm_num) (by norm_num)
  have hhigh : (estimateFromItems defaultConfig []).cost_high = 0 := by
    norm_num [estimateFromItems, estAccumulate, defaultConfig, hj0]
  have hlabel : (routeDecision defaultConfig [] (estimateFromItems defaultConfig [])).label =
      "INVESTIGATE" := by
    rw [routeDecision, hhigh]
    norm_num [maxSeverity, aggregateConfidence, defaultConfig]
  refine ⟨by simp [maxSeverity], ?_, hhigh, by norm_num [aggregateConfidence],
    by norm_num [defaultConfig], hlabel, by rw [hlabel]; simp⟩
  norm_num [estimateFromItems, estAccumulate, defaultConfig, hj0]

/-- The normalized severity is always in [1,5]. -/
theorem normSeverity_bounds (d : JVal) : 1 ≤ normSeverity d ∧ normSeverity d ≤ 5 := by
  unfold normSeverity
  split
  · split_ifs with h
    · exact h
    · norm_num
  · norm_num

/-- The normalized confidence is always in [0,1]. -/
theorem normConfidence_bounds (d : JVal) : 0 ≤ normConfidence d ∧ normConfidence d ≤ 1 := by
  unfold normConfidence
  split
  · exact ⟨le_max_left 0 _, max_le (by norm_num) (min_le_left 1 _)⟩
  · norm_num

/-- A list element accepted by the bounding-box guard is a number in
[0,1]. -/
theorem bboxElem_ok (e : JVal)
    (h : (match e with
          | JVal.num q => decide (0 ≤ q) && decide (q ≤ 1)
          | _ => false) = true) :
    ∃ q : ℚ, e = JVal.num q ∧ 0 ≤ q ∧ q ≤ 1 := by
  cases e <;> try simp at h
  next q => exact ⟨q, rfl, by simpa using h⟩

/-- A list element accepted by the polygon point guard is a pair of numbers
in the unit square. -/
theorem polyPoint_ok (e : JVal)
    (h : (match e with
          | JVal.arr [JVal.num a, JVal.num b] =>
              decide (0 ≤ a) && (decide (a ≤ 1) && (decide (0 ≤ b) && decide (b ≤ 1)))
          | _ => false) = true) :
    ∃ a b : ℚ, e = JVal.arr [JVal.num a, JVal.num b] ∧
      0 ≤ a ∧ a ≤ 1 ∧ 0 ≤ b ∧ b ≤ 1 := by
  cases e <;> try simp at h
  next xs =>
  rcases xs with _ | ⟨a, _ | ⟨b, _ | ⟨c, t⟩⟩⟩ <;> try simp at h
  cases a <;> try simp at h
  next qa =>
  cases b <;> try simp at h
  next qb => exact ⟨qa, qb, rfl, by simpa using h⟩

/-- A value accepted by the bounding-box guard extracts to four coordinates
in [0,1]. -/
theorem isBBoxRel_sound (v : JVal) (h : isBBoxRel v = true) :
    0 ≤ (bboxElems v).1 ∧ (bboxElems v).1 ≤ 1 ∧
    0 ≤ (bboxElems v).2.1 ∧ (bboxElems v).2.1 ≤ 1 ∧
    0 ≤ (bboxElems v).2.2.1 ∧ (bboxElems v).2.2.1 ≤ 1 ∧
    0 ≤ (bboxElems v).2.2.2 ∧ (bboxElems v).2.2.2 ≤ 1 := by
  cases v <;> try simp [isBBoxRel] at h
  next xs =>
  obtain ⟨hlen, hall⟩ := h
  rcases xs with _ | ⟨e0, _ | ⟨e1, _ | ⟨e2, _ | ⟨e3, _ | ⟨e4, rest⟩⟩⟩⟩⟩ <;>
    simp only [List.length_cons, List.length_nil] at hlen <;> try omega
  obtain ⟨q0, rfl, hq0⟩ := bboxElem_ok e0 (hall e0 (by simp))
  obtain ⟨q1, rfl, hq1⟩ := bboxElem_ok e1 (hall e1 (by simp))
  obtain ⟨q2, rfl, hq2⟩ := bboxElem_ok e2 (hall e2 (by simp))
  obtain ⟨q3, rfl, hq3⟩ := bboxElem_ok e3 (hall e3 (by simp))
  simp only [bboxElems, numAt]
  norm_num
  exact ⟨hq0.1, hq0.2, hq1.1, hq1.2, hq2.1, hq2.2, hq3.1, hq3.2⟩

/-- A value accepted by the polygon guard extracts to 3–12 points inside the
unit square. -/
theorem isPolygonRel_sound (v : JVal) (h : isPolygonRel v = true) :
    3 ≤ (polyElems v).length ∧ (polyElems v).length ≤ 12 ∧
    ∀ pt ∈ polyElems v, 0 ≤ pt.1 ∧ pt.1 ≤ 1 ∧ 0 ≤ pt.2 ∧ pt.2 ≤ 1 := by
  cases v <;> try simp [isPolygonRel] at h
  next pts =>
  obtain ⟨⟨h3, h12⟩, hall⟩ := h
  refine ⟨by simpa [polyElems] using h3, by simpa [polyElems] using h12, ?_⟩
  intro pt hpt
  simp only [polyElems, List.mem_map] at hpt
  obtain ⟨e, he, rfl⟩ := hpt
  obtain ⟨a, b, rfl, hab⟩ := polyPoint_ok e (hall e he)
  simp only [numAt]
  norm_num
  exact hab

/-- Whenever the normalizer emits a bounding box, it is valid. -/
theorem normBBox_sound (d : JVal) (g : ℚ × ℚ × ℚ × ℚ) (h : normBBox d = some g) :
    0 ≤ g.1 ∧ g.1 ≤ 1 ∧ 0 ≤ g.2.1 ∧ g.2.1 ≤ 1 ∧
    0 ≤ g.2.2.1 ∧ g.2.2.1 ≤ 1 ∧ 0 ≤ g.2.2.2 ∧ g.2.2.2 ≤ 1 := by
  unfold normBBox at h
  rcases hf : getField d "bbox_rel" with _ | v
  · rw [hf] at h
    simp at h
  · rw [hf] at h
    simp only [Option.ite_none_right_eq_some, Option.some.injEq] at h
    obtain ⟨hv, rfl⟩ := h
    exact isBBoxRel_sound v hv

/-- Whenever the normalizer emits a polygon, it is valid. -/
theorem normPoly_sound (d : JVal) (ps : List (ℚ × ℚ)) (h : normPoly d = some ps) :
    3 ≤ ps.length ∧ ps.length ≤ 12 ∧
    ∀ pt ∈ ps, 0 ≤ pt.1 ∧ pt.1 ≤ 1 ∧ 0 ≤ pt.2 ∧ pt.2 ≤ 1 := by
  unfold normPoly at h
  rcases hf : getField d "polygon_rel" with _ | v
  · rw [hf] at h
    simp at h
  · rw [hf] at h
    simp only [Option.ite_none_right_eq_some, Option.some.injEq] at h
    obtain ⟨hv, rfl⟩ := h
    exact isPolygonRel_sound v hv

/-- C1: the normalizer is total — for every input array of candidate
observations (elements of arbitrary shape), it returns exactly one canonical
record per input element, in the same order and with the same count, and
each output record satisfies the canonical invariants: the enumerated fields
always hold a (string) value, severity lies in [1,5], confidence lies in
[0,1], and each geometry field is either absent or valid (box coordinates in
[0,1]; polygon of 3–12 unit-square points). -/
theorem normalization_totality (cands : List JVal) :
    (normalize cands).length = cands.length ∧
    (∀ i : ℕ, (normalize cands).get? i = (cands.get? i).map normalizeItem) ∧
    (∀ r ∈ normalize cands,
      (1 ≤ r.severity ∧ r.severity ≤ 5) ∧
      (0 ≤ r.confidence ∧ r.confidence ≤ 1) ∧
      (∀ g, r.bbox_rel = some g →
        0 ≤ g.1 ∧ g.1 ≤ 1 ∧ 0 ≤ g.2.1 ∧ g.2.1 ≤ 1 ∧
        0 ≤ g.2.2.1 ∧ g.2.2.1 ≤ 1 ∧ 0 ≤ g.2.2.2 ∧ g.2.2.2 ≤ 1) ∧
      (∀ ps, r.polygon_rel = some ps →
        3 ≤ ps.length ∧ ps.length ≤ 12 ∧
        ∀ pt ∈ ps, 0 ≤ pt.1 ∧ pt.1 ≤ 1 ∧ 0 ≤ pt.2 ∧ pt.2 ≤ 1)) := by
  refine ⟨by simp [normalize], by simp [normalize, List.get?_map], ?_⟩
  intro r hr
  obtain ⟨d, -, rfl⟩ := List.mem_map.mp hr
  refine ⟨?_, ?_, ?_, ?_⟩
  · simpa [normalizeItem] using normSeverity_bounds d
  · simpa [normalizeItem] using normConfidence_bounds d
  · intro g hg
    exact normBBox_sound d g (by simpa [normalizeItem] using hg)
  · intro ps hps
    exact normPoly_sound d ps (by simpa [normalizeItem] using hps)

/-- Witness for C1 at a concrete input. -/
theorem normalization_totality_witness :
    (normalize [bananaCand]).length = [bananaCand].length :=
  (normalization_totality [bananaCand]).1

/-- Labor component of one estimator step. -/
theorem estStep_labor (cfg : Config) (acc : EstAcc) (d : DamageItem) :
    (estStep cfg acc d).labor = acc.labor + d.est_labor_hours * cfg.labor := rfl

/-- Paint component of one estimator step. -/
theorem estStep_paint (cfg : Config) (acc : EstAcc) (d : DamageItem) :
    (estStep cfg acc d).paint =
      if (d.needs_paint && !(d.zone == "") && !(acc.zones.contains d.zone)) = true
      then acc.paint + cfg.paint else acc.paint := rfl

/-- Charged-zones component of one estimator step. -/
theorem estStep_zones (cfg : Config) (acc : EstAcc) (d : DamageItem) :
    (estStep cfg acc d).zones =
      if (d.needs_paint && !(d.zone == "") && !(acc.zones.contains d.zone)) = true
      then acc.zones ++ [d.zone] else acc.zones := rfl

/-- Parts component of one estimator step. -/
theorem estStep_parts (cfg : Config) (acc : EstAcc) (d : DamageItem) :
    (estStep cfg acc d).parts =
      if 4 ≤ d.severity ∨ d.likely_parts.length ≠ 0
      then acc.parts + 250 *
        ((max 1 (if d.likely_parts.length = 0 then 1 else d.likely_parts.length) : ℕ) : ℚ)
      else acc.parts := rfl

/-- Structure of the paint accumulation: the estimator loop only ever
appends fresh, non-empty zones of paint-needing records to the charged-zone
set, and adds exactly one paint unit per appended zone. -/
theorem estFold_zones (cfg : Config) :
    ∀ (items : List DamageItem) (acc : EstAcc),
      ∃ ext : List String,
        (items.foldl (estStep cfg) acc).zones = acc.zones ++ ext ∧
        (items.foldl (estStep cfg) acc).paint = acc.paint + cfg.paint * ext.length ∧
        (acc.zones.Nodup → (items.foldl (estStep cfg) acc).zones.Nodup) ∧
        (∀ z ∈ ext, z ≠ "" ∧ ∃ d ∈ items, d.zone = z ∧ d.needs_paint = true) := by
  intro items
  induction items with
  | nil =>
    intro acc
    exact ⟨[], by simp, by simp, fun h => by simpa using h, by simp⟩
  | cons d t ih =>
    intro acc
    obtain ⟨ext, hz, hpaint, hnd, hmem⟩ := ih (estStep cfg acc d)
    by_cases hc : (d.needs_paint && !(d.zone == "") && !(acc.zones.contains d.zone)) = true
    · have hfacts := hc
      simp only [Bool.and_eq_true, Bool.not_eq_true', beq_eq_false_iff_ne, ne_eq] at hfacts
      obtain ⟨⟨hdp, hdz⟩, hdc⟩ := hfacts
      have hzz : (estStep cfg acc d).zones = acc.zones ++ [d.zone] := by
        rw [estStep_zones, if_pos hc]
      have hpp : (estStep cfg acc d).paint = acc.paint + cfg.paint := by
        rw [estStep_paint, if_pos hc]
      have hnotmem : d.zone ∉ acc.zones := by
        simpa using hdc
      refine ⟨d.zone :: ext, ?_, ?_, ?_, ?_⟩
      · rw [List.foldl_cons, hz, hzz]
        simp
      · rw [List.foldl_cons, hpaint, hpp]
        push_cast [List.length_cons]
        ring
      · intro hnodup
        apply hnd
        rw [hzz]
        refine List.Nodup.append hnodup (List.nodup_singleton _) ?_
        intro a ha hb
        rw [List.mem_singleton] at hb
        subst hb
        exact hnotmem ha
      · intro z hzmem
        rcases List.mem_cons.mp hzmem with rfl | hzin
        · exact ⟨hdz, d, List.mem_cons_self d t, rfl, hdp⟩
        · obtain ⟨hne, d2, hd2, hz2, hp2⟩ := hmem z hzin
          exact ⟨hne, d2, List.mem_cons_of_mem d hd2, hz2, hp2⟩
    · have hzz : (estStep cfg acc d).zones = acc.zones := by
        rw [estStep_zones, if_neg hc]
      have hpp : (estStep cfg acc d).paint = acc.paint := by
        rw [estStep_paint, if_neg hc]
      refine ⟨ext, ?_, ?_, ?_, ?_⟩
      · rw [List.foldl_cons, hz, hzz]
      · rw [List.foldl_cons, hpaint, hpp]
      · intro hnodup
        exact hnd (hzz ▸ hnodup)
      · intro z hzin
        obtain ⟨hne, d2, hd2, hz2, hp2⟩ := hmem z hzin
        exact ⟨hne, d2, List.mem_cons_of_mem d hd2, hz2, hp2⟩

/-- C6: paint is charged per distinct zone, not per item — the charged-zone
set has no duplicates, the paint total is exactly one paint unit per charged
zone, every charged zone is the non-empty zone of some paint-needing record,
and in particular two paint-needing records sharing zone "front-left"
contribute exactly one paint unit. -/
theorem paint_per_zone (cfg : Config) (items : List DamageItem) :
    (estAccumulate cfg items).zones.Nodup ∧
    (estAccumulate cfg items).paint =
      cfg.paint * ((estAccumulate cfg items).zones.length : ℚ) ∧
    (∀ z ∈ (estAccumulate cfg items).zones,
      z ≠ "" ∧ ∃ d ∈ items, d.zone = z ∧ d.needs_paint = true) ∧
    (estAccumulate defaultConfig [rFL1, rFL2]).paint = defaultConfig.paint := by
  obtain ⟨ext, hz, hpaint, hnd, hmem⟩ :=
    estFold_zones cfg items { labor := 0, paint := 0, parts := 0, zones := [] }
  have hacc : estAccumulate cfg items =
      items.foldl (estStep cfg) { labor := 0, paint := 0, parts := 0, zones := [] } := rfl
  refine ⟨?_, ?_, ?_, ?_⟩
  · rw [hacc]
    exact hnd List.nodup_nil
  · rw [hacc, hpaint, hz]
    simp
  · intro z hzin
    rw [hacc, hz] at hzin
    simpa using hmem z (by simpa using hzin)
  · norm_num [estAccumulate, estStep, rFL1, rFL2, defaultConfig]
    all_goals decide

/-- The estimator loop keeps all three cost components non-negative when
unit costs and labor hours are non-negative. -/
theorem estFold_nonneg (cfg : Config) (hl : 0 ≤ cfg.labor) (hp : 0 ≤ cfg.paint) :
    ∀ (items : List DamageItem) (acc : EstAcc),
      (∀ d ∈ items, 0 ≤ d.est_labor_hours) →
      0 ≤ acc.labor → 0 ≤ acc.paint → 0 ≤ acc.parts →
      0 ≤ (items.foldl (estStep cfg) acc).labor ∧
      0 ≤ (items.foldl (estStep cfg) acc).paint ∧
      0 ≤ (items.foldl (estStep cfg) acc).parts := by
  intro items
  induction items with
  | nil =>
    intro acc h hl0 hp0 hs0
    simpa using ⟨hl0, hp0, hs0⟩
  | cons d t ih =>
    intro acc h hl0 hp0 hs0
    rw [List.foldl_cons]
    apply ih
    · intro x hx
      exact h x (List.mem_cons_of_mem d hx)
    · have hd0 := h d (List.mem_cons_self d t)
      rw [estStep_labor]
      exact add_nonneg hl0 (mul_nonneg hd0 hl)
    · rw [estStep_paint]
      split_ifs with hc
      · exact add_nonneg hp0 hp
      · exact hp0
    · rw [estStep_parts]
      split_ifs <;>
        first
          | exact hs0
          | exact add_nonneg hs0 (by positivity)

/-- jsRound of a non-negative rational is non-negative. -/
theorem jsRound_nonneg (q : ℚ) (h : 0 ≤ q) : 0 ≤ jsRound q := by
  unfold jsRound
  rw [Int.le_floor]
  push_cast
  linarith

/-- jsRound is monotone. -/
theorem jsRound_mono (a b : ℚ) (h : a ≤ b) : jsRound a ≤ jsRound b := by
  unfold jsRound
  exact Int.floor_le_floor (by linarith)

/-- C5 (amended): for record sequences in which every record carries a
non-negative est_labor_hours (which the normalizer does not itself
guarantee), under non-negative unit costs the estimate band is well-formed:
0 ≤ cost_low ≤ cost_high (both integers). -/
theorem cost_band_amended (cfg : Config) (items : List DamageItem)
    (hl : 0 ≤ cfg.labor) (hp : 0 ≤ cfg.paint)
    (hh : ∀ d ∈ items, 0 ≤ d.est_labor_hours) :
    0 ≤ (estimateFromItems cfg items).cost_low ∧
    (estimateFromItems cfg items).cost_low ≤ (estimateFromItems cfg items).cost_high := by
  obtain ⟨h1, h2, h3⟩ := estFold_nonneg cfg hl hp items
    { labor := 0, paint := 0, parts := 0, zones := [] } hh
    (le_refl 0) (le_refl 0) (le_refl 0)
  have hacc : estAccumulate cfg items =
      items.foldl (estStep cfg) { labor := 0, paint := 0, parts := 0, zones := [] } := rfl
  rw [← hacc] at h1 h2 h3
  have hsub : 0 ≤ (estAccumulate cfg items).labor + (estAccumulate cfg items).paint +
      (estAccumulate cfg items).parts := by linarith
  have hlow : (estimateFromItems cfg items).cost_low =
      jsRound (((estAccumulate cfg items).labor + (estAccumulate cfg items).paint +
        (estAccumulate cfg items).parts) *
        (1 - if items.any fun i => decide (4 ≤ i.severity) then (0.25 : ℚ) else 0.15)) := by
    simp only [estimateFromItems]
  have hhigh : (estimateFromItems cfg items).cost_high =
      jsRound (((estAccumulate cfg items).labor + (estAccumulate cfg items).paint +
        (estAccumulate cfg items).parts) *
        (1 + if items.any fun i => decide (4 ≤ i.severity) then (0.25 : ℚ) else 0.15)) := by
    simp only [estimateFromItems]
  have hv : 0 ≤ (if items.any fun i => decide (4 ≤ i.severity) then (0.25 : ℚ) else 0.15) ∧
      (if items.any fun i => decide (4 ≤ i.severity) then (0.25 : ℚ) else 0.15) ≤ 1 := by
    split_ifs <;> norm_num
  constructor
  · rw [hlow]
    exact jsRound_nonneg _ (mul_nonneg hsub (by linarith [hv.1, hv.2]))
  · rw [hlow, hhigh]
    exact jsRound_mono _ _ (mul_le_mul_of_nonneg_left (by linarith [hv.1]) hsub)

/-- Witness for C5 (amended) at a concrete input. -/
theorem cost_band_amended_witness :
    0 ≤ (estimateFromItems defaultConfig [rFL1]).cost_low ∧
    (estimateFromItems defaultConfig [rFL1]).cost_low ≤
      (estimateFromItems defaultConfig [rFL1]).cost_high :=
  cost_band_amended defaultConfig [rFL1] (by norm_num [defaultConfig])
    (by norm_num [defaultConfig])
    (by
      intro d hd
      rw [List.mem_singleton] at hd
      subst hd
      norm_num [rFL1])

/-- C4 (amended): when a candidate supplies both a valid bounding box and a
valid polygon, the normalized record carries the polygon geometry — and,
contrary to the claimed precedence, also retains the bounding box; the two
geometry fields are validated and kept independently. -/
theorem polygon_precedence_amended (d v w : JVal)
    (hbv : getField d "bbox_rel" = some v) (hb : isBBoxRel v = true)
    (hpv : getField d "polygon_rel" = some w) (hp : isPolygonRel w = true) :
    (normalizeItem d).polygon_rel = some (polyElems w) ∧
    (normalizeItem d).bbox_rel = some (bboxElems v) := by
  constructor
  · simp [normalizeItem, normPoly, hpv, hp]
  · simp [normalizeItem, normBBox, hbv, hb]

/-- Witness for C4 (amended) at a concrete input. -/
theorem polygon_precedence_amended_witness :
    (normalizeItem bothGeom).polygon_rel =
      some (polyElems (JVal.arr
        [ JVal.arr [JVal.num 0, JVal.num 0],
          JVal.arr [JVal.num 1, JVal.num 0],
          JVal.arr [JVal.num (1/2), JVal.num 1] ])) ∧
    (normalizeItem bothGeom).bbox_rel =
      some (bboxElems (JVal.arr
        [JVal.num (1/10), JVal.num (1/5), JVal.num (3/10), JVal.num (2/5)])) :=
  polygon_precedence_amended bothGeom _ _ rfl (by norm_num [isBBoxRel]) rfl
    (by norm_num [isPolygonRel])

/-- Bounding a running maximum over severities. -/
theorem foldl_max_le_iff (items : List DamageItem) :
    ∀ m a : ℚ, items.foldl (fun m d => max m d.severity) m ≤ a ↔
      m ≤ a ∧ ∀ d ∈ items, d.severity ≤ a := by
  induction items with
  | nil =>
    intro m a
    simp
  | cons d t ih =>
    intro m a
    rw [List.foldl_cons, ih]
    simp only [max_le_iff, List.forall_mem_cons]
    tauto

/-- Reaching a bound with a running maximum over severities. -/
theorem le_foldl_max_iff (items : List DamageItem) :
    ∀ m a : ℚ, a ≤ items.foldl (fun m d => max m d.severity) m ↔
      a ≤ m ∨ ∃ d ∈ items, a ≤ d.severity := by
  induction items with
  | nil =>
    intro m a
    simp
  | cons d t ih =>
    intro m a
    rw [List.foldl_cons, ih]
    simp only [le_max_iff, List.exists_mem_cons_iff]
    tauto

/-- The decision max severity is at most a bound iff the bound is
non-negative and every record severity is at most the bound. -/
theorem maxSeverity_le_iff (items : List DamageItem) (a : ℚ) :
    maxSeverity items ≤ a ↔ 0 ≤ a ∧ ∀ d ∈ items, d.severity ≤ a :=
  foldl_max_le_iff items 0 a

/-- The decision max severity reaches a bound iff the bound is non-positive
or some record severity reaches it. -/
theorem le_maxSeverity_iff (items : List DamageItem) (a : ℚ) :
    a ≤ maxSeverity items ↔ a ≤ 0 ∨ ∃ d ∈ items, a ≤ d.severity :=
  le_foldl_max_iff items 0 a

/-- The conjunctive AUTO-APPROVE gate of the decision engine. -/
def autoConds (cfg : Config) (items : List DamageItem) (est : Estimate) : Prop :=
  maxSeverity items ≤ cfg.autoMaxSeverity ∧
  (est.cost_high : ℚ) ≤ cfg.autoMaxCost ∧
  cfg.autoMinConf ≤ aggregateConfidence items

/-- The severity trigger of the SPECIALIST branch. -/
def specSevTrig (cfg : Config) (items : List DamageItem) : Prop :=
  cfg.specMinSeverity ≤ maxSeverity items

/-- The cost trigger of the SPECIALIST branch. -/
def specCostTrig (cfg : Config) (est : Estimate) : Prop :=
  cfg.specMinCost ≤ (est.cost_high : ℚ)

/-- C7: decision precedence and exact reasons — AUTO-APPROVE is taken
exactly when all three conjunctive bounds hold (and then reports exactly the
three bound reasons); SPECIALIST is taken second, only when AUTO-APPROVE
failed and a trigger fired, reporting exactly the triggering condition(s);
INVESTIGATE is the fallback, reporting the three raw observed values; the
max-severity conditions are characterized over the record list, and the
concrete set with max severity 5 and cost_high 200 under default thresholds
routes to SPECIALIST with exactly one severity reason. -/
theorem decision_precedence (cfg : Config) (items : List DamageItem) (est : Estimate) :
    (autoConds cfg items est →
      routeDecision cfg items est =
        { label := "AUTO-APPROVE",
          reasons := [Reason.sevAtMost cfg.autoMaxSeverity,
            Reason.costAtMost cfg.autoMaxCost,
            Reason.confAtLeastPct (jsRound (cfg.autoMinConf * 100))] }) ∧
    ((routeDecision cfg items est).label = "AUTO-APPROVE" → autoConds cfg items est) ∧
    (¬ autoConds cfg items est → specSevTrig cfg items → ¬ specCostTrig cfg est →
      routeDecision cfg items est =
        { label := "SPECIALIST", reasons := [Reason.sevAtLeast cfg.specMinSeverity] }) ∧
    (¬ autoConds cfg items est → ¬ specSevTrig cfg items → specCostTrig cfg est →
      routeDecision cfg items est =
        { label := "SPECIALIST", reasons := [Reason.costAtLeast cfg.specMinCost] }) ∧
    (¬ autoConds cfg items est → specSevTrig cfg items → specCostTrig cfg est →
      routeDecision cfg items est =
        { label := "SPECIALIST",
          reasons := [Reason.sevAtLeast cfg.specMinSeverity,
            Reason.costAtLeast cfg.specMinCost] }) ∧
    (¬ autoConds cfg items est → ¬ specSevTrig cfg items → ¬ specCostTrig cfg est →
      routeDecision cfg items est =
        { label := "INVESTIGATE",
          reasons := [Reason.aggConfPct (jsRound (aggregateConfidence items * 100)),
            Reason.maxSeverityVal (maxSeverity items),
            Reason.costHighVal (est.cost_high : ℚ)] }) ∧
    (maxSeverity items ≤ cfg.autoMaxSeverity ↔
      0 ≤ cfg.autoMaxSeverity ∧ ∀ d ∈ items, d.severity ≤ cfg.autoMaxSeverity) ∧
    (specSevTrig cfg items ↔
      cfg.specMinSeverity ≤ 0 ∨ ∃ d ∈ items, cfg.specMinSeverity ≤ d.severity) ∧
    routeDecision defaultConfig [sampleSevere] sampleEst =
      { label := "SPECIALIST", reasons := [Reason.sevAtLeast 4] } := by
  refine ⟨?_, ?_, ?_, ?_, ?_, ?_, maxSeverity_le_iff items cfg.autoMaxSeverity,
    le_maxSeverity_iff items cfg.specMinSeverity, ?_⟩
  · intro h
    simp only [autoConds] at h
    simp only [routeDecision]
    rw [if_pos h]
  · intro hl
    by_contra hna
    simp only [autoConds] at hna
    simp only [routeDecision] at hl
    rw [if_neg hna] at hl
    split_ifs at hl <;> simp at hl
  · intro hna hs hc
    simp only [autoConds] at hna
    simp only [specSevTrig] at hs
    simp only [specCostTrig] at hc
    simp only [routeDecision]
    rw [if_neg hna, if_pos (Or.inl hs), if_pos hs, if_neg hc]
    simp
  · intro hna hs hc
    simp only [autoConds] at hna
    simp only [specSevTrig] at hs
    simp only [specCostTrig] at hc
    simp only [routeDecision]
    rw [if_neg hna, if_pos (Or.inr hc), if_neg hs, if_pos hc]
    simp
  · intro hna hs hc
    simp only [autoConds] at hna
    simp only [specSevTrig] at hs
    simp only [specCostTrig] at hc
    simp only [routeDecision]
    rw [if_neg hna, if_pos (Or.inl hs), if_pos hs, if_pos hc]
    simp
  · intro hna hs hc
    simp only [autoConds] at hna
    simp only [specSevTrig] at hs
    simp only [specCostTrig] at hc
    have hd : ¬ (cfg.specMinSeverity ≤ maxSeverity items ∨
        cfg.specMinCost ≤ (est.cost_high : ℚ)) := by
      intro hor
      rcases hor with h1 | h2
      · exact hs h1
      · exact hc h2
    simp only [routeDecision]
    rw [if_neg hna, if_neg hd]
  · have hms : maxSeverity [sampleSevere] = 5 := by
      norm_num [maxSeverity, sampleSevere, max_def]
    have hch : (sampleEst.cost_high : ℚ) = 200 := by
      norm_num [sampleEst]
    simp only [routeDecision, hms, hch]
    rw [if_neg (by norm_num [defaultConfig]),
      if_pos (Or.inl (by norm_num [defaultConfig])),
      if_pos (by norm_num [defaultConfig] : defaultConfig.specMinSeverity ≤ (5 : ℚ)),
      if_neg (by norm_num [defaultConfig] : ¬ defaultConfig.specMinCost ≤ (200 : ℚ))]
    simp [defaultConfig]

/-- Witness for C7: instantiating the precedence theorem at the concrete
SPECIALIST example. -/
theorem decision_precedence_witness :
    routeDecision defaultConfig [sampleSevere] sampleEst =
      { label := "SPECIALIST", reasons := [Reason.sevAtLeast 4] } :=
  (decision_precedence defaultConfig [sampleSevere] sampleEst).2.2.2.2.2.2.2.2

/-- The confidence-aggregation fold computes the pair of weighted sums. -/
theorem aggFold_eq (items : List DamageItem) :
    ∀ n0 d0 : ℚ,
      items.foldl
        (fun (nd : ℚ × ℚ) d =>
          let w := 1 + (1/5) * (d.severity - 1)
          (nd.1 + d.confidence * w, nd.2 + w)) (n0, d0) =
      (n0 + (items.map fun d => d.confidence * (1 + (1/5) * (d.severity - 1))).sum,
       d0 + (items.map fun d => 1 + (1/5) * (d.severity - 1)).sum) := by
  induction items with
  | nil =>
    intro n0 d0
    simp
  | cons d t ih =>
    intro n0 d0
    rw [List.foldl_cons, ih]
    simp only [List.map_cons, List.sum_cons, Prod.mk.injEq]
    constructor <;> ring

/-- Weighted-sum bounds: with severities in [1,5] every weight is at least
one, so the weight sum is non-negative (at least 1 when non-empty) and the
weighted confidence sum is bracketed by lo and hi times the weight sum. -/
theorem agg_sum_bounds (lo hi : ℚ) :
    ∀ items : List DamageItem,
      (∀ d ∈ items, 1 ≤ d.severity ∧ d.severity ≤ 5) →
      (∀ d ∈ items, lo ≤ d.confidence ∧ d.confidence ≤ hi) →
      0 ≤ (items.map fun d => 1 + (1/5) * (d.severity - 1)).sum ∧
      (items ≠ [] → 1 ≤ (items.map fun d => 1 + (1/5) * (d.severity - 1)).sum) ∧
      lo * (items.map fun d => 1 + (1/5) * (d.severity - 1)).sum ≤
        (items.map fun d => d.confidence * (1 + (1/5) * (d.severity - 1))).sum ∧
      (items.map fun d => d.confidence * (1 + (1/5) * (d.severity - 1))).sum ≤
        hi * (items.map fun d => 1 + (1/5) * (d.severity - 1)).sum := by
  intro items
  induction items with
  | nil =>
    intro _ _
    simp
  | cons d t ih =>
    intro hs hc
    obtain ⟨w0, w1, wl, wh⟩ :=
      ih (fun x hx => hs x (List.mem_cons_of_mem d hx))
        (fun x hx => hc x (List.mem_cons_of_mem d hx))
    have hds := hs d (List.mem_cons_self d t)
    have hdc := hc d (List.mem_cons_self d t)
    have hw : 1 ≤ 1 + (1/5) * (d.severity - 1) := by linarith [hds.1]
    have hlo : lo * (1 + (1/5) * (d.severity - 1)) ≤
        d.confidence * (1 + (1/5) * (d.severity - 1)) :=
      mul_le_mul_of_nonneg_right hdc.1 (by linarith)
    have hhi : d.confidence * (1 + (1/5) * (d.severity - 1)) ≤
        hi * (1 + (1/5) * (d.severity - 1)) :=
      mul_le_mul_of_nonneg_right hdc.2 (by linarith)
    refine ⟨?_, ?_, ?_, ?_⟩
    · simp only [List.map_cons, List.sum_cons]
      linarith
    · intro h
      simp only [List.map_cons, List.sum_cons]
      linarith
    · simp only [List.map_cons, List.sum_cons]
      nlinarith [hlo, wl]
    · simp only [List.map_cons, List.sum_cons]
      nlinarith [hhi, wh]

/-- C9: for any non-empty record sequence with severities in [1,5] and all
confidences between lo and hi (in particular lo and hi the minimum and
maximum confidence of the set), the severity-weighted aggregate confidence
lies in [lo, hi]; for the empty sequence the aggregator returns exactly
1/2. -/
theorem aggregate_confidence_bounds (items : List DamageItem) (lo hi : ℚ)
    (hne : items ≠ [])
    (hsev : ∀ d ∈ items, 1 ≤ d.severity ∧ d.severity ≤ 5)
    (hconf : ∀ d ∈ items, lo ≤ d.confidence ∧ d.confidence ≤ hi) :
    (lo ≤ aggregateConfidence items ∧ aggregateConfidence items ≤ hi) ∧
    aggregateConfidence [] = 1/2 := by
  obtain ⟨w0, w1, wl, wh⟩ := agg_sum_bounds lo hi items hsev hconf
  have hw1 := w1 hne
  have hpos : 0 < (items.map fun d => 1 + (1/5) * (d.severity - 1)).sum := by
    linarith
  have hagg : aggregateConfidence items =
      (items.map fun d => d.confidence * (1 + (1/5) * (d.severity - 1))).sum /
        (items.map fun d => 1 + (1/5) * (d.severity - 1)).sum := by
    simp only [aggregateConfidence]
    rw [aggFold_eq]
    simp only [zero_add]
    rw [if_pos (by exact ne_of_gt hpos)]
  refine ⟨⟨?_, ?_⟩, by norm_num [aggregateConfidence]⟩
  · rw [hagg, le_div_iff hpos]
    exact wl
  · rw [hagg, div_le_iff hpos]
    exact wh

/-- Witness for C9 at a concrete two-record input with confidences 3/5
and 9/10. -/
theorem aggregate_confidence_bounds_witness :
    ((3/5 : ℚ) ≤ aggregateConfidence [wRec1, wRec2] ∧
      aggregateConfidence [wRec1, wRec2] ≤ 9/10) ∧
    aggregateConfidence [] = 1/2 :=
  aggregate_confidence_bounds [wRec1, wRec2] (3/5) (9/10) (by simp)
    (by
      intro d hd
      rcases List.mem_cons.mp hd with rfl | hd2
      · norm_num [wRec1]
      · rw [List.mem_singleton] at hd2
        subst hd2
        norm_num [wRec2])
    (by
      intro d hd
      rcases List.mem_cons.mp hd with rfl | hd2
      · norm_num [wRec1]
      · rw [List.mem_singleton] at hd2
        subst hd2
        norm_num [wRec2])

/-- A concrete YOLO seed used by the C10 witness. -/
def wSeed : YoloSeed :=
  { bbox_rel := (0, 0, 1/2, 1/2), confidence := 9/10 }

/-- C10: when normalization of the model output yields zero records and YOLO
seed boxes were supplied, the estimate and decision are computed over one
synthetic record per seed — each with zone, part and damage_type "unknown",
severity 2, needs_paint false, empty likely_parts, est_labor_hours equal to
the unknown-part fallback at severity 2 (= 0.8), confidence the seed
confidence clamped into [0,1], and the seed box as geometry. -/
theorem yolo_seed_substitution (cfg : Config) (cands : List JVal)
    (seeds : List YoloSeed) (hempty : normalize cands = [])
    (hseeds : seeds ≠ []) :
    (analyzeOutcome cfg cands seeds).1 = seeds.map seedToItem ∧
    (analyzeOutcome cfg cands seeds).2.1 =
      estimateFromItems cfg (seeds.map seedToItem) ∧
    (analyzeOutcome cfg cands seeds).2.2 =
      routeDecision cfg (seeds.map seedToItem)
        (estimateFromItems cfg (seeds.map seedToItem)) ∧
    (∀ b ∈ seeds, seedToItem b =
      { zone := "unknown", part := "unknown", damage_type := "unknown",
        severity := 2, confidence := max 0 (min 1 b.confidence),
        est_labor_hours := hoursFor "unknown" 2, needs_paint := false,
        likely_parts := [], bbox_rel := some b.bbox_rel,
        polygon_rel := none }) ∧
    hoursFor "unknown" 2 = 4/5 := by
  have hfin : itemsFinal (normalize cands) seeds = seeds.map seedToItem := by
    rw [hempty]
    simp [itemsFinal]
  have h1 : hoursFor "unknown" 2 = round2 (4/5) := by
    simp only [hoursFor]
    simp
    norm_num
  have h2 : round2 (4/5 : ℚ) = 4/5 := by
    rw [round2, show ((4 : ℚ)/5 * 100) = 80 by norm_num,
      jsRound_eq_of 80 80 (by norm_num) (by norm_num)]
    norm_num
  refine ⟨?_, ?_, ?_, fun b hb => rfl, by rw [h1, h2]⟩
  · simp only [analyzeOutcome, hfin]
  · simp only [analyzeOutcome, hfin]
  · simp only [analyzeOutcome, hfin]

/-- Witness for C10 at a concrete input: no candidates, one seed box. -/
theorem yolo_seed_substitution_witness :
    (analyzeOutcome defaultConfig [] [wSeed]).1 = [wSeed].map seedToItem ∧
    (analyzeOutcome defaultConfig [] [wSeed]).2.1 =
      estimateFromItems defaultConfig ([wSeed].map seedToItem) ∧
    (analyzeOutcome defaultConfig [] [wSeed]).2.2 =
      routeDecision defaultConfig ([wSeed].map seedToItem)
        (estimateFromItems defaultConfig ([wSeed].map seedToItem)) ∧
    (∀ b ∈ [wSeed], seedToItem b =
      { zone := "unknown", part := "unknown", damage_type := "unknown",
        severity := 2, confidence := max 0 (min 1 b.confidence),
        est_labor_hours := hoursFor "unknown" 2, needs_paint := false,
        likely_parts := [], bbox_rel := some b.bbox_rel,
        polygon_rel := none }) ∧
    hoursFor "unknown" 2 = 4/5 :=
  yolo_seed_substitution defaultConfig [] [wSeed] (by simp [normalize]) (by simp)

end VehicleDamage
